import Mathlib

/-!
Shallow embedding of `src/mongo/db/ops/parsed_delete.cpp` (the delete-request
compiler `ParsedDelete`) and verification of its natural-language specification.

Modelling conventions:
* BSON objects are association lists of field name / value pairs; only the
  structure the code inspects (emptiness, the `_id` fast-path shape, identity of
  the filter document) is modelled.
* Stateful C++ code becomes explicit state passing.  Side effects whose
  *ordering* the specification talks about (collation resolution, starting and
  stopping the expression counters, the predicate split, the canonicalizer
  invocation) are recorded in an event trace.
* `invariant`/`tassert` (fatal, non-recoverable assertions) and `uassert`
  (recoverable, user-facing `Status` errors) are distinguished in the
  `Outcome` type.
* External collaborators (`CanonicalQuery::isSimpleIdQuery`,
  `timeseries::getMatchExprsForWrites`, the canonicalizer,
  `createTimeseriesWritesQueryExprsIfNecessary`) live outside this file's
  source; calls to them are parameters of the embedding (`Externals`), and
  spec-modelled instantiations are provided where a claim needs their
  behaviour.
-/

/-- A BSON value: either a plain scalar literal, or a sub-document applying an
operator (e.g. `{"$lt": 5}`), which is all the granularity the embedded code
distinguishes. -/
inductive BSONValue where
  | scalar : String → BSONValue
  | operatorDoc : String → String → BSONValue
deriving DecidableEq, Repr

/-- A BSON object: a list of field name / value pairs. -/
abbrev BSONObj := List (String × BSONValue)

/-- Embeds `BSONObj::isEmpty`. -/
def BSONObj.isEmptyObj (b : BSONObj) : Bool := b.isEmpty

/-- A match expression, as produced by the timeseries predicate splitter.  The
`closedBucketGuard` constructor stands for the "bucket not closed for deletion"
filter that every bucket-level predicate must contain. -/
inductive MatchExpression where
  | closedBucketGuard : MatchExpression
  | leaf : String → BSONValue → MatchExpression
  | and : MatchExpression → MatchExpression → MatchExpression
deriving DecidableEq, Repr

/-- Whether a match expression contains the closed-bucket guard as a
sub-expression. -/
def MatchExpression.includesClosedBucketGuard : MatchExpression → Bool
  | .closedBucketGuard => true
  | .leaf _ _ => false
  | .and a b => a.includesClosedBucketGuard || b.includesClosedBucketGuard

/-- Embeds `MatchExpression::serialize`: render a match expression back to a BSON
document (the form in which it is placed into the canonicalizer input). -/
def MatchExpression.serialize : MatchExpression → BSONObj
  | .closedBucketGuard => [("control.closed", BSONValue.scalar "notTrue")]
  | .leaf f v => [(f, v)]
  | .and a b => a.serialize ++ b.serialize

/-- Legacy runtime constants attached to a request (opaque to this code). -/
abbrev RuntimeConstants := Nat

/-- Embeds `PlanYieldPolicy::YieldPolicy` (only the alternatives this code mentions). -/
inductive YieldPolicy where
  | NO_YIELD
  | YIELD_AUTO
  | INTERRUPT_ONLY
deriving DecidableEq, Repr

/-- The delete specification (`DeleteRequest`), immutable input of compilation. -/
structure DeleteRequest where
  nsString : String
  query : BSONObj
  sort : BSONObj
  collation : BSONObj
  hint : BSONObj
  proj : BSONObj
  multi : Bool
  returnDeleted : Bool
  god : Bool
  yieldPolicy : YieldPolicy
  isExplain : Bool
  legacyRuntimeConstants : Option RuntimeConstants
  letParams : Option BSONObj
deriving DecidableEq, Repr

/-- Time-series partitioning options of a collection. -/
structure TimeseriesOptions where
  timeField : String
  metaField : Option String
deriving DecidableEq, Repr

/-- Fallback options used to model dereferencing of
`*_collection->getTimeseriesOptions()`. -/
def TimeseriesOptions.dflt : TimeseriesOptions :=
  { timeField := "time", metaField := none }

/-- The collection schema snapshot, borrowed by the compiler. -/
structure Collection where
  timeseriesOptions : Option TimeseriesOptions
deriving DecidableEq, Repr

/-- The bucket-level / residual match expression pair produced for
time-partitioned deletes (`TimeseriesWritesQueryExprs`). -/
structure TimeseriesWritesQueryExprs where
  _bucketExpr : Option MatchExpression
  _residualExpr : Option MatchExpression
deriving DecidableEq, Repr

/-- The canonicalizer input assembled by `parseQueryToCQ`
(`FindCommandRequest`).  Note that it carries no projection field: the
projection is applied after the delete, never during canonicalization. -/
structure FindCommandRequest where
  nss : String
  filter : BSONObj
  sort : BSONObj
  collation : BSONObj
  hint : BSONObj
  limit : Option Nat
  legacyRuntimeConstants : Option RuntimeConstants
  letParams : Option BSONObj
deriving DecidableEq, Repr

/-- The compiled query.  Opaque to this code beyond being held and transferred;
modelled as a wrapper of the canonicalizer input it was produced from. -/
structure CanonicalQuery where
  findCommand : FindCommandRequest
deriving DecidableEq, Repr

/-- Error codes of recoverable (`Status` / `uassert`) failures surfaced by this
code. -/
inductive ErrorCode where
  | InvalidOptions
  | CanonicalizationFailed
deriving DecidableEq, Repr

/-- Identities of the fatal (non-recoverable) assertions in the source. -/
inductive Fatal where
  | invariantReturnDeletedAndMulti
  | invariantProjWithoutReturnDeleted
  | tassert7542400
  | invariantNoCanonicalQuery
deriving DecidableEq, Repr

/-- Outcome of an operation: success, a recoverable user-facing error
(`uassert` / propagated `Status`), or a fatal assertion
(`invariant` / `tassert`). -/
inductive Outcome (α : Type) where
  | ok : α → Outcome α
  | err : ErrorCode → Outcome α
  | fatal : Fatal → Outcome α
deriving DecidableEq, Repr

/-- Observable side effects of compilation, recorded in order of occurrence. -/
inductive Event where
  | resolveCollator
  | startExpressionCounters
  | stopExpressionCounters
  | splitPredicate
  | canonicalize : FindCommandRequest → Event
deriving DecidableEq, Repr

/-- The external collaborators called by `parsed_delete.cpp`, passed as
parameters of the embedding: `CanonicalQuery::isSimpleIdQuery`,
`timeseries::getMatchExprsForWrites`, and the canonicalizer (modelled by which
inputs it rejects, and with which error). -/
structure Externals where
  isSimpleIdQuery : BSONObj → Bool
  getMatchExprsForWrites : TimeseriesOptions → BSONObj → TimeseriesWritesQueryExprs
  canonFail : FindCommandRequest → Option ErrorCode

/-- The mutable result state of a `ParsedDelete` after `parseRequest`:
`_timeseriesDeleteQueryExprs` and `_canonicalQuery`. -/
structure PDResult where
  exprs : Option TimeseriesWritesQueryExprs
  cq : Option CanonicalQuery
deriving DecidableEq, Repr

/-- The attachment of runtime constants and let parameters to the
canonicalizer input (lines 145-150): each is set only when present on the
request, which on an input holding `none` for both amounts to copying the
request's optional fields. -/
def ParsedDelete.attachParams (req : DeleteRequest) (fc : FindCommandRequest) :
    FindCommandRequest :=
  { fc with legacyRuntimeConstants := req.legacyRuntimeConstants,
            letParams := req.letParams }

/-- Final part of `ParsedDelete::parseQueryToCQ`: the canonicalizer invocation
(lines 145-164).  Attaches the runtime constants and let parameters when
present, invokes the canonicalizer and stores the compiled query only on
success. -/
def ParsedDelete.canonStep (ext : Externals) (req : DeleteRequest)
    (exprs : Option TimeseriesWritesQueryExprs) (fc : FindCommandRequest)
    (tr : List Event) : Outcome PDResult × List Event :=
  match ext.canonFail (ParsedDelete.attachParams req fc) with
  | some e =>
      (Outcome.err e,
       tr ++ [Event.canonicalize (ParsedDelete.attachParams req fc)])
  | none =>
      (Outcome.ok
        { exprs := exprs,
          cq := some { findCommand := ParsedDelete.attachParams req fc } },
       tr ++ [Event.canonicalize (ParsedDelete.attachParams req fc)])

/-- The canonicalizer input as first assembled by `parseQueryToCQ` (lines
104-126): namespace, filter, sort, collation and hint from the request, with
no limit and no parameters yet.  It carries no projection (lines 102-103). -/
def ParsedDelete.baseFC (req : DeleteRequest) (filterObj : BSONObj) :
    FindCommandRequest :=
  { nss := req.nsString, filter := filterObj, sort := req.sort,
    collation := req.collation, hint := req.hint, limit := none,
    legacyRuntimeConstants := none, letParams := none }

/-- Middle part of `ParsedDelete::parseQueryToCQ` (lines 124-143): sets sort,
collation and hint on the canonicalizer input, then applies the limit policy:
limit 1 only for non-multi deletes with a sort, and such a combination is
rejected with `InvalidOptions` when the delete is time-partitioned
(`uassert`, line 139). -/
def ParsedDelete.finishCQ (ext : Externals) (req : DeleteRequest)
    (exprs : Option TimeseriesWritesQueryExprs) (filterObj : BSONObj)
    (tr : List Event) : Outcome PDResult × List Event :=
  if !req.multi && !req.sort.isEmptyObj then
    if exprs.isSome then (Outcome.err ErrorCode.InvalidOptions, tr)
    else
      ParsedDelete.canonStep ext req exprs
        { ParsedDelete.baseFC req filterObj with limit := some 1 } tr
  else ParsedDelete.canonStep ext req exprs (ParsedDelete.baseFC req filterObj) tr

/-- The bucket/residual pair returned by the splitter invocation of line 109:
`timeseries::getMatchExprsForWrites(_expCtx, *_collection->getTimeseriesOptions(),
_request->getQuery())`. -/
def ParsedDelete.splitResult (ext : Externals) (req : DeleteRequest)
    (coll : Collection) : TimeseriesWritesQueryExprs :=
  ext.getMatchExprsForWrites
    (coll.timeseriesOptions.getD TimeseriesOptions.dflt) req.query

/-- Embeds `ParsedDelete::parseQueryToCQ` (lines 99-165).  For a time-partitioned
delete (non-null `_timeseriesDeleteQueryExprs`), splits the user predicate into
bucket-level and residual expressions, stops the expression counters, checks
the bucket-level filter is non-null (`tassert` 7542400) and uses its
serialization as the filter; otherwise uses the original query as the
filter. -/
def ParsedDelete.parseQueryToCQ (ext : Externals) (req : DeleteRequest)
    (coll : Collection) (exprs0 : Option TimeseriesWritesQueryExprs) :
    Outcome PDResult × List Event :=
  match exprs0 with
  | some _ =>
      match (ParsedDelete.splitResult ext req coll)._bucketExpr with
      | none =>
          (Outcome.fatal Fatal.tassert7542400,
           [Event.splitPredicate, Event.stopExpressionCounters])
      | some be =>
          ParsedDelete.finishCQ ext req
            (some (ParsedDelete.splitResult ext req coll)) be.serialize
            [Event.splitPredicate, Event.stopExpressionCounters]
  | none => ParsedDelete.finishCQ ext req none req.query []

/-- Embeds `ParsedDelete::parseRequest` (lines 71-97): the two contract invariants,
collation resolution / evaluation-context construction, the simple-`_id`
fast path, and otherwise starting the expression counters and delegating to
`parseQueryToCQ`. -/
def ParsedDelete.parseRequest (ext : Externals) (req : DeleteRequest)
    (coll : Collection) (exprs0 : Option TimeseriesWritesQueryExprs) :
    Outcome PDResult × List Event :=
  if req.returnDeleted && req.multi then
    (Outcome.fatal Fatal.invariantReturnDeletedAndMulti, [])
  else if !req.proj.isEmptyObj && !req.returnDeleted then
    (Outcome.fatal Fatal.invariantProjWithoutReturnDeleted, [])
  else
    if ext.isSimpleIdQuery req.query && exprs0.isNone then
      (Outcome.ok { exprs := exprs0, cq := none }, [Event.resolveCollator])
    else
      ((ParsedDelete.parseQueryToCQ ext req coll exprs0).1,
       Event.resolveCollator :: Event.startExpressionCounters ::
         (ParsedDelete.parseQueryToCQ ext req coll exprs0).2)

/-- Embeds `ParsedDelete::hasParsedQuery` (lines 175-177). -/
def ParsedDelete.hasParsedQuery (cq : Option CanonicalQuery) : Bool :=
  cq.isSome

/-- Embeds `ParsedDelete::releaseParsedQuery` (lines 179-182): fatal `invariant` when
no canonical query is held; otherwise transfers it out, leaving the member
empty. -/
def ParsedDelete.releaseParsedQuery (cq : Option CanonicalQuery) :
    Outcome (CanonicalQuery × Option CanonicalQuery) :=
  match cq with
  | none => Outcome.fatal Fatal.invariantNoCanonicalQuery
  | some c => Outcome.ok (c, none)

/-- Embeds `ParsedDelete::getResidualExpr`: the residual expression held in
`_timeseriesDeleteQueryExprs`, when any. -/
def ParsedDelete.getResidualExpr (exprs : Option TimeseriesWritesQueryExprs) :
    Option MatchExpression :=
  exprs.bind (fun e => e._residualExpr)

/-- Embeds `ParsedDelete::isEligibleForArbitraryTimeseriesDelete` (lines 184-186). -/
def ParsedDelete.isEligibleForArbitraryTimeseriesDelete (req : DeleteRequest)
    (exprs : Option TimeseriesWritesQueryExprs) : Bool :=
  exprs.isSome && ((ParsedDelete.getResidualExpr exprs).isSome || !req.multi)

/-- Embeds `ParsedDelete::yieldPolicy` (lines 171-173). -/
def ParsedDelete.yieldPolicyOf (req : DeleteRequest) : YieldPolicy :=
  if req.god then YieldPolicy.NO_YIELD else req.yieldPolicy

/-- Modelled from the spec: `createTimeseriesWritesQueryExprsIfNecessary`
(declared in `timeseries_update_delete_util.h`, not under `src/`).  The
spec says the delete is treated as time-partitioned only when the
timeseries-deletes feature flag is enabled and the collection's metadata says
it is time-partitioned; only then is the query-expressions object non-null
(initially empty, filled in later by the splitter). -/
def createTimeseriesWritesQueryExprsIfNecessary (featureFlagEnabled : Bool)
    (coll : Collection) : Option TimeseriesWritesQueryExprs :=
  if featureFlagEnabled && coll.timeseriesOptions.isSome then
    some { _bucketExpr := none, _residualExpr := none }
  else none

/-- The member initializer of the `ParsedDelete` constructor (lines 57-69):
`_timeseriesDeleteQueryExprs` is created only when the caller passed
`isTimeseriesDelete`, and then only if the feature flag and collection
metadata warrant it. -/
def ParsedDelete.initExprs (featureFlagEnabled : Bool) (coll : Collection)
    (isTimeseriesDelete : Bool) : Option TimeseriesWritesQueryExprs :=
  if isTimeseriesDelete then
    createTimeseriesWritesQueryExprsIfNecessary featureFlagEnabled coll
  else none

/-- Modelled from the spec: `CanonicalQuery::isSimpleIdQuery`
(`canonical_query.cpp`, not under `src/`): a single top-level equality of
`_id` against a scalar literal, with no other clauses or operators. -/
def CanonicalQuery.isSimpleIdQuery (q : BSONObj) : Bool :=
  match q with
  | [(f, BSONValue.scalar _)] => f == "_id"
  | _ => false

/-- Bucket-level approximation used by the spec-modelled splitter: per-field
control bounds conjoined with the closed-bucket guard. -/
def timeseries.bucketFromQuery (q : BSONObj) : MatchExpression :=
  q.foldr
    (fun kv acc =>
      MatchExpression.and (MatchExpression.leaf ("control." ++ kv.1) kv.2) acc)
    MatchExpression.closedBucketGuard

/-- Residual predicate of the spec-modelled splitter: absent exactly when the
bucket-level predicate is exact, which the model takes to be the case when
every top-level field of the predicate is the metadata field. -/
def timeseries.residualFromQuery (opts : TimeseriesOptions) (q : BSONObj) :
    Option MatchExpression :=
  if q.all (fun kv => opts.metaField = some kv.1) then none
  else
    some (q.foldr
      (fun kv acc => MatchExpression.and (MatchExpression.leaf kv.1 kv.2) acc)
      (MatchExpression.leaf "residualMarker" (BSONValue.scalar "true")))

/-- Modelled from the spec: `timeseries::getMatchExprsForWrites`
(`timeseries_update_delete_util.cpp`, not under `src/`).  Splits the user
predicate into a never-null bucket-level predicate that always includes the
closed-bucket guard, plus an optional residual predicate, omitted only when
the bucket-level predicate is exact. -/
def timeseries.getMatchExprsForWrites (opts : TimeseriesOptions) (q : BSONObj) :
    TimeseriesWritesQueryExprs :=
  { _bucketExpr := some (timeseries.bucketFromQuery q),
    _residualExpr := timeseries.residualFromQuery opts q }

/-- The externals instantiated with the spec-modelled collaborators; the
canonicalizer's failure behaviour stays a parameter. -/
def specExternals (cf : FindCommandRequest → Option ErrorCode) : Externals :=
  { isSimpleIdQuery := CanonicalQuery.isSimpleIdQuery,
    getMatchExprsForWrites := timeseries.getMatchExprsForWrites,
    canonFail := cf }

/-- Whether an outcome is a fatal assertion (as opposed to success or a
recoverable error). -/
def Outcome.isFatal {α : Type} : Outcome α → Bool
  | Outcome.fatal _ => true
  | _ => false

/-- Whether an optional bucket-level expression is present and includes the
closed-bucket guard. -/
def bucketIncludesGuard : Option MatchExpression → Bool
  | none => false
  | some b => b.includesClosedBucketGuard

/-- The serialization of an optional bucket-level expression (empty document
when absent). -/
def bucketSerial : Option MatchExpression → BSONObj
  | none => []
  | some b => b.serialize

/-- Whether a trace contains a canonicalizer invocation. -/
def hasCanonicalizeEvent (t : List Event) : Bool :=
  t.any (fun ev =>
    match ev with
    | Event.canonicalize _ => true
    | _ => false)

/-- Whether every canonicalizer invocation in a trace received exactly `q` as
its filter. -/
def canonFilterAlways (q : BSONObj) (t : List Event) : Bool :=
  t.all (fun ev =>
    match ev with
    | Event.canonicalize fc => fc.filter == q
    | _ => true)

/-- Concrete fixtures used to exercise the theorems on closed inputs. -/
def reqBase : DeleteRequest :=
  { nsString := "db.c", query := [("a", BSONValue.scalar "1")], sort := [],
    collation := [], hint := [], proj := [], multi := false,
    returnDeleted := false, god := false,
    yieldPolicy := YieldPolicy.YIELD_AUTO, isExplain := false,
    legacyRuntimeConstants := none, letParams := none }

def collPlain : Collection := { timeseriesOptions := none }

def collTs : Collection :=
  { timeseriesOptions := some { timeField := "time", metaField := some "m" } }

def cfNone : FindCommandRequest → Option ErrorCode := fun _ => none

def extSpec : Externals := specExternals cfNone

def emptyExprs : TimeseriesWritesQueryExprs :=
  { _bucketExpr := none, _residualExpr := none }

/-- A deliberately broken splitter that forgets the bucket-level expression,
used to exercise the `tassert` path. -/
def brokenExt : Externals :=
  { isSimpleIdQuery := fun _ => false,
    getMatchExprsForWrites := fun _ _ => emptyExprs,
    canonFail := fun _ => none }

theorem attachParams_limit (req : DeleteRequest) (fc : FindCommandRequest) :
    (ParsedDelete.attachParams req fc).limit = fc.limit := rfl

theorem attachParams_filter (req : DeleteRequest) (fc : FindCommandRequest) :
    (ParsedDelete.attachParams req fc).filter = fc.filter := rfl

theorem attachParams_sort (req : DeleteRequest) (fc : FindCommandRequest) :
    (ParsedDelete.attachParams req fc).sort = fc.sort := rfl

theorem canonStep_ok (ext : Externals) (req : DeleteRequest)
    (exprs : Option TimeseriesWritesQueryExprs) (fc : FindCommandRequest)
    (tr : List Event) (r : PDResult) (t : List Event)
    (h : ParsedDelete.canonStep ext req exprs fc tr = (Outcome.ok r, t)) :
    r = { exprs := exprs,
          cq := some { findCommand := ParsedDelete.attachParams req fc } } ∧
    t = tr ++ [Event.canonicalize (ParsedDelete.attachParams req fc)] := by
  unfold ParsedDelete.canonStep at h
  split at h
  · simp at h
  · injection h with h1 h2
    injection h1 with h1
    exact ⟨h1.symm, h2.symm⟩

theorem canonStep_trace (ext : Externals) (req : DeleteRequest)
    (exprs : Option TimeseriesWritesQueryExprs) (fc : FindCommandRequest)
    (tr : List Event) :
    (ParsedDelete.canonStep ext req exprs fc tr).2 =
      tr ++ [Event.canonicalize (ParsedDelete.attachParams req fc)] := by
  unfold ParsedDelete.canonStep
  split <;> rfl

theorem finishCQ_ok (ext : Externals) (req : DeleteRequest)
    (exprs : Option TimeseriesWritesQueryExprs) (filterObj : BSONObj)
    (tr : List Event) (r : PDResult) (t : List Event)
    (h : ParsedDelete.finishCQ ext req exprs filterObj tr = (Outcome.ok r, t)) :
    ∃ fc, r = { exprs := exprs, cq := some { findCommand := fc } } ∧
      fc.filter = filterObj ∧ fc.sort = req.sort ∧
      fc.limit = (if !req.multi && !req.sort.isEmptyObj then some 1 else none) ∧
      t = tr ++ [Event.canonicalize fc] := by
  unfold ParsedDelete.finishCQ at h
  split at h
  · rename_i hcond
    split at h
    · simp at h
    · obtain ⟨hr, ht⟩ := canonStep_ok _ _ _ _ _ _ _ h
      refine ⟨_, hr, rfl, rfl, ?_, ht⟩
      simp [hcond, ParsedDelete.attachParams, ParsedDelete.baseFC]
  · rename_i hcond
    obtain ⟨hr, ht⟩ := canonStep_ok _ _ _ _ _ _ _ h
    refine ⟨_, hr, rfl, rfl, ?_, ht⟩
    simp [hcond, ParsedDelete.attachParams, ParsedDelete.baseFC]

theorem parseQueryToCQ_ok (ext : Externals) (req : DeleteRequest)
    (coll : Collection) (exprs0 : Option TimeseriesWritesQueryExprs)
    (r : PDResult) (t : List Event)
    (h : ParsedDelete.parseQueryToCQ ext req coll exprs0 = (Outcome.ok r, t)) :
    ∃ fc, r.cq = some { findCommand := fc } ∧
      fc.sort = req.sort ∧
      fc.limit = (if !req.multi && !req.sort.isEmptyObj then some 1 else none) ∧
      ((exprs0 = none ∧ r.exprs = none ∧ fc.filter = req.query ∧
          t = [Event.canonicalize fc]) ∨
       (exprs0.isSome = true ∧
        r.exprs = some (ParsedDelete.splitResult ext req coll) ∧
        (ParsedDelete.splitResult ext req coll)._bucketExpr.isSome = true ∧
        fc.filter = bucketSerial (ParsedDelete.splitResult ext req coll)._bucketExpr ∧
        t = [Event.splitPredicate, Event.stopExpressionCounters,
             Event.canonicalize fc])) := by
  cases exprs0 with
  | none =>
      simp only [ParsedDelete.parseQueryToCQ] at h
      obtain ⟨fc, hr, hf, hs, hl, ht⟩ := finishCQ_ok _ _ _ _ _ _ _ h
      exact ⟨fc, by rw [hr], hs, hl,
        Or.inl ⟨rfl, by rw [hr], hf, by simpa using ht⟩⟩
  | some e0 =>
      simp only [ParsedDelete.parseQueryToCQ] at h
      split at h
      · simp at h
      · rename_i be hbe
        obtain ⟨fc, hr, hf, hs, hl, ht⟩ := finishCQ_ok _ _ _ _ _ _ _ h
        refine ⟨fc, by rw [hr], hs, hl,
          Or.inr ⟨rfl, by rw [hr], by rw [hbe]; rfl, ?_, by simpa using ht⟩⟩
        rw [hf, hbe]
        rfl

theorem parseRequest_ok (ext : Externals) (req : DeleteRequest)
    (coll : Collection) (exprs0 : Option TimeseriesWritesQueryExprs)
    (r : PDResult) (t : List Event)
    (h : ParsedDelete.parseRequest ext req coll exprs0 = (Outcome.ok r, t)) :
    (ext.isSimpleIdQuery req.query = true ∧ exprs0 = none ∧
      r = { exprs := none, cq := none } ∧ t = [Event.resolveCollator]) ∨
    ((ext.isSimpleIdQuery req.query && exprs0.isNone) = false ∧
     ∃ t2, ParsedDelete.parseQueryToCQ ext req coll exprs0 = (Outcome.ok r, t2) ∧
      t = Event.resolveCollator :: Event.startExpressionCounters :: t2) := by
  unfold ParsedDelete.parseRequest at h
  split at h
  · simp at h
  · split at h
    · simp at h
    · split at h
      · rename_i hfast
        injection h with h1 h2
        injection h1 with h1
        obtain ⟨hid, hnone⟩ := Bool.and_eq_true_iff.mp hfast
        refine Or.inl ⟨hid, Option.isNone_iff_eq_none.mp hnone, ?_, h2.symm⟩
        rw [← h1]
        rw [Option.isNone_iff_eq_none.mp hnone]
      · rename_i hfast
        injection h with h1 h2
        refine Or.inr ⟨Bool.not_eq_true _ ▸ (by exact hfast), (ParsedDelete.parseQueryToCQ ext req coll exprs0).2, ?_, h2.symm⟩
        rw [← h1]

theorem finishCQ_trace (ext : Externals) (req : DeleteRequest)
    (exprs : Option TimeseriesWritesQueryExprs) (filterObj : BSONObj)
    (tr : List Event) :
    (ParsedDelete.finishCQ ext req exprs filterObj tr).2 = tr ∨
    ∃ fcx, (ParsedDelete.finishCQ ext req exprs filterObj tr).2 =
        tr ++ [Event.canonicalize fcx] ∧ fcx.filter = filterObj := by
  unfold ParsedDelete.finishCQ
  split
  · split
    · exact Or.inl rfl
    · exact Or.inr ⟨_, canonStep_trace _ _ _ _ _, rfl⟩
  · exact Or.inr ⟨_, canonStep_trace _ _ _ _ _, rfl⟩

theorem bucketFromQuery_guard (q : BSONObj) :
    (timeseries.bucketFromQuery q).includesClosedBucketGuard = true := by
  induction q with
  | nil => rfl
  | cons kv tl ih =>
      simp only [timeseries.bucketFromQuery, List.foldr,
        MatchExpression.includesClosedBucketGuard, Bool.or_eq_true] at ih ⊢
      exact Or.inr ih

/-- C7: a specification with `returnDeleted` together with `multi`, or with a
non-empty projection without `returnDeleted`, makes `compile()` fail with a
fatal contract-violation assertion, with an empty event trace: the check
happens before collation resolution and before any predicate work. -/
theorem contract_violation_is_fatal_and_first (ext : Externals)
    (req : DeleteRequest) (coll : Collection)
    (exprs0 : Option TimeseriesWritesQueryExprs)
    (h : (req.returnDeleted = true ∧ req.multi = true) ∨
         (req.proj.isEmptyObj = false ∧ req.returnDeleted = false)) :
    Outcome.isFatal (ParsedDelete.parseRequest ext req coll exprs0).1 = true ∧
    (ParsedDelete.parseRequest ext req coll exprs0).2 = [] := by
  rcases h with ⟨h1, h2⟩ | ⟨h1, h2⟩ <;>
    simp [ParsedDelete.parseRequest, h1, h2, Outcome.isFatal]

def reqC7 : DeleteRequest :=
  { reqBase with returnDeleted := true, multi := true }

theorem contract_violation_is_fatal_and_first_witness :
    Outcome.isFatal (ParsedDelete.parseRequest extSpec reqC7 collPlain none).1 = true ∧
    (ParsedDelete.parseRequest extSpec reqC7 collPlain none).2 = [] :=
  contract_violation_is_fatal_and_first extSpec reqC7 collPlain none
    (Or.inl ⟨rfl, rfl⟩)

/-- C8: `takeCompiledQuery()` (`releaseParsedQuery`) transfers the held
compiled query to the caller and leaves the member empty, so
`hasCompiledQuery()` is false afterwards; calling it with nothing held — in
particular a second call in succession, which operates on the emptied member —
is a fatal contract violation. -/
theorem releaseParsedQuery_take_once (cq : CanonicalQuery) :
    ParsedDelete.releaseParsedQuery (some cq) = Outcome.ok (cq, none) ∧
    ParsedDelete.hasParsedQuery (none : Option CanonicalQuery) = false ∧
    ParsedDelete.releaseParsedQuery (none : Option CanonicalQuery) =
      Outcome.fatal Fatal.invariantNoCanonicalQuery :=
  ⟨rfl, rfl, rfl⟩

/-- C1: whenever `compile()` succeeds and stores a compiled query, the
canonicalizer input (hence the compiled query) carries a limit of exactly 1 if
and only if the specification is non-multi and has a non-empty sort; in
particular for `multi=true` the limit is unset. -/
theorem compiledQuery_limit_one_iff (ext : Externals) (req : DeleteRequest)
    (coll : Collection) (exprs0 : Option TimeseriesWritesQueryExprs)
    (r : PDResult) (t : List Event) (cq : CanonicalQuery)
    (hok : ParsedDelete.parseRequest ext req coll exprs0 = (Outcome.ok r, t))
    (hcq : r.cq = some cq) :
    (cq.findCommand.limit = some 1 ↔
      (req.multi = false ∧ req.sort.isEmptyObj = false)) ∧
    (req.multi = true → cq.findCommand.limit = none) := by
  rcases parseRequest_ok _ _ _ _ _ _ hok with ⟨_, _, hr, _⟩ | ⟨_, t2, hpq, _⟩
  · rw [hr] at hcq
    simp at hcq
  · obtain ⟨fc, hcq2, _, hl, _⟩ := parseQueryToCQ_ok _ _ _ _ _ _ hpq
    rw [hcq] at hcq2
    have he := Option.some_inj.mp hcq2
    have hlim : cq.findCommand.limit =
        (if !req.multi && !req.sort.isEmptyObj then some 1 else none) := by
      rw [he]
      exact hl
    rw [hlim]
    cases hmu : req.multi <;> cases hso : req.sort.isEmptyObj <;>
      simp [hmu, hso]

def reqC1 : DeleteRequest :=
  { reqBase with sort := [("a", BSONValue.scalar "1")] }

def fcC1 : FindCommandRequest :=
  ParsedDelete.attachParams reqC1
    { ParsedDelete.baseFC reqC1 reqC1.query with limit := some 1 }

theorem compiledQuery_limit_one_iff_witness :
    (({ findCommand := fcC1 } : CanonicalQuery).findCommand.limit = some 1 ↔
      (reqC1.multi = false ∧ reqC1.sort.isEmptyObj = false)) ∧
    (reqC1.multi = true →
      ({ findCommand := fcC1 } : CanonicalQuery).findCommand.limit = none) :=
  compiledQuery_limit_one_iff extSpec reqC1 collPlain none
    { exprs := none, cq := some { findCommand := fcC1 } }
    [Event.resolveCollator, Event.startExpressionCounters,
     Event.canonicalize fcC1]
    { findCommand := fcC1 } (by decide) rfl

/-- C3: a specification whose predicate is a simple `_id` equality, on a
non-time-partitioned delete (null `_timeseriesDeleteQueryExprs`), takes the
fast path: `compile()` succeeds with no canonicalizer invocation, no compiled
query stored (`hasCompiledQuery()` false) and the expression counters never
started. -/
theorem simpleIdQuery_fastpath (ext : Externals) (req : DeleteRequest)
    (coll : Collection)
    (hinv1 : ¬(req.returnDeleted = true ∧ req.multi = true))
    (hinv2 : req.proj.isEmptyObj = true ∨ req.returnDeleted = true)
    (hid : ext.isSimpleIdQuery req.query = true) :
    ParsedDelete.parseRequest ext req coll none =
      (Outcome.ok { exprs := none, cq := none }, [Event.resolveCollator]) ∧
    ParsedDelete.hasParsedQuery
      ({ exprs := none, cq := none } : PDResult).cq = false ∧
    hasCanonicalizeEvent [Event.resolveCollator] = false ∧
    Event.startExpressionCounters ∉ [Event.resolveCollator] := by
  have h1 : (req.returnDeleted && req.multi) = false := by
    cases hr : req.returnDeleted <;> cases hm : req.multi <;> simp_all
  have h2 : (!req.proj.isEmptyObj && !req.returnDeleted) = false := by
    rcases hinv2 with hp | hp <;> simp [hp]
  refine ⟨?_, rfl, rfl, by simp⟩
  simp [ParsedDelete.parseRequest, h1, h2, hid]

def reqC3 : DeleteRequest :=
  { reqBase with query := [("_id", BSONValue.scalar "7")] }

theorem simpleIdQuery_fastpath_witness :
    ParsedDelete.parseRequest extSpec reqC3 collPlain none =
      (Outcome.ok { exprs := none, cq := none }, [Event.resolveCollator]) ∧
    ParsedDelete.hasParsedQuery
      ({ exprs := none, cq := none } : PDResult).cq = false ∧
    hasCanonicalizeEvent [Event.resolveCollator] = false ∧
    Event.startExpressionCounters ∉ [Event.resolveCollator] :=
  simpleIdQuery_fastpath extSpec reqC3 collPlain (by simp [reqC3, reqBase])
    (Or.inl rfl) rfl

/-- C2: a well-formed non-multi specification with a non-empty sort, on a
time-partitioned delete, makes `compile()` fail immediately with the
recoverable user-facing `InvalidOptions` error (a `uassert`, not a fatal
assertion): the outcome is `err`, no compiled query is stored and the
canonicalizer is never invoked (the trace stops right after the split). -/
theorem ts_nonmulti_sorted_invalidOptions
    (cf : FindCommandRequest → Option ErrorCode) (req : DeleteRequest)
    (coll : Collection) (e0 : TimeseriesWritesQueryExprs)
    (hm : req.multi = false) (hs : req.sort.isEmptyObj = false)
    (hproj : req.proj.isEmptyObj = true ∨ req.returnDeleted = true) :
    ParsedDelete.parseRequest (specExternals cf) req coll (some e0) =
      (Outcome.err ErrorCode.InvalidOptions,
       [Event.resolveCollator, Event.startExpressionCounters,
        Event.splitPredicate, Event.stopExpressionCounters]) := by
  rcases hproj with hp | hp <;>
    simp [ParsedDelete.parseRequest, ParsedDelete.parseQueryToCQ,
      ParsedDelete.finishCQ, ParsedDelete.splitResult, specExternals,
      timeseries.getMatchExprsForWrites, hm, hs, hp]

def reqC2 : DeleteRequest :=
  { reqBase with sort := [("b", BSONValue.scalar "2")] }

theorem ts_nonmulti_sorted_invalidOptions_witness :
    ParsedDelete.parseRequest (specExternals cfNone) reqC2 collTs
        (some emptyExprs) =
      (Outcome.err ErrorCode.InvalidOptions,
       [Event.resolveCollator, Event.startExpressionCounters,
        Event.splitPredicate, Event.stopExpressionCounters]) :=
  ts_nonmulti_sorted_invalidOptions cfNone reqC2 collTs emptyExprs rfl rfl
    (Or.inl rfl)

/-- C4: the bucket-level predicate produced by the splitter for a
time-partitioned delete is never null and always includes the closed-bucket
guard (spec-modelled splitter); and under the splitter's documented invariant
that any non-null output carries the guard, an output missing the guard can
only be the null one, which `parseQueryToCQ` rejects with the fatal internal
`tassert` 7542400 — not with a user-facing error. -/
theorem bucket_guard_invariant_fatal (opts : TimeseriesOptions) (q : BSONObj)
    (ext : Externals) (req : DeleteRequest) (coll : Collection)
    (e0 : TimeseriesWritesQueryExprs)
    (hspec : ∀ o p, bucketIncludesGuard
        (ext.getMatchExprsForWrites o p)._bucketExpr = true ∨
        (ext.getMatchExprsForWrites o p)._bucketExpr = none)
    (hmiss : bucketIncludesGuard
        (ParsedDelete.splitResult ext req coll)._bucketExpr = false) :
    (timeseries.getMatchExprsForWrites opts q)._bucketExpr.isSome = true ∧
    bucketIncludesGuard
      (timeseries.getMatchExprsForWrites opts q)._bucketExpr = true ∧
    (ParsedDelete.parseQueryToCQ ext req coll (some e0)).1 =
      Outcome.fatal Fatal.tassert7542400 := by
  have hnull : (ParsedDelete.splitResult ext req coll)._bucketExpr = none := by
    rcases hspec (coll.timeseriesOptions.getD TimeseriesOptions.dflt)
        req.query with hg | hn
    · exact absurd hg (by simp [ParsedDelete.splitResult] at hmiss ⊢; simp_all)
    · exact hn
  refine ⟨rfl, ?_, ?_⟩
  · simp [timeseries.getMatchExprsForWrites, bucketIncludesGuard,
      bucketFromQuery_guard]
  · simp [ParsedDelete.parseQueryToCQ, hnull]

def qC4 : BSONObj := [("a", BSONValue.scalar "1")]

theorem bucket_guard_invariant_fatal_witness :
    (timeseries.getMatchExprsForWrites TimeseriesOptions.dflt qC4)._bucketExpr.isSome = true ∧
    bucketIncludesGuard
      (timeseries.getMatchExprsForWrites TimeseriesOptions.dflt qC4)._bucketExpr = true ∧
    (ParsedDelete.parseQueryToCQ brokenExt reqBase collTs (some emptyExprs)).1 =
      Outcome.fatal Fatal.tassert7542400 :=
  bucket_guard_invariant_fatal TimeseriesOptions.dflt qC4 brokenExt reqBase
    collTs emptyExprs (fun _ _ => Or.inr rfl) rfl

/-- C5: on a time-partitioned delete, whenever compilation reaches the
canonicalizer, the filter handed to it is the serialization of the bucket-level
predicate produced by the split (not the original match predicate), and the
event trace shows the expression counters stopped immediately after the split
and strictly before the canonicalizer invocation. -/
theorem ts_canonicalizes_bucket_predicate (ext : Externals)
    (req : DeleteRequest) (coll : Collection)
    (e0 : TimeseriesWritesQueryExprs) (o : Outcome PDResult) (t : List Event)
    (fc : FindCommandRequest)
    (h : ParsedDelete.parseRequest ext req coll (some e0) = (o, t))
    (hc : Event.canonicalize fc ∈ t) :
    (ParsedDelete.splitResult ext req coll)._bucketExpr.isSome = true ∧
    fc.filter = bucketSerial (ParsedDelete.splitResult ext req coll)._bucketExpr ∧
    t = [Event.resolveCollator, Event.startExpressionCounters,
         Event.splitPredicate, Event.stopExpressionCounters,
         Event.canonicalize fc] := by
  unfold ParsedDelete.parseRequest at h
  split at h
  · injection h with h1 h2
    rw [← h2] at hc
    simp at hc
  · split at h
    · injection h with h1 h2
      rw [← h2] at hc
      simp at hc
    · split at h
      · rename_i hfast
        simp at hfast
      · injection h with h1 h2
        simp only [ParsedDelete.parseQueryToCQ] at h1 h2
        split at h2
        · rename_i hbe
          rw [← h2] at hc
          simp at hc
        · rename_i be hbe
          rw [← h2] at hc
          rcases finishCQ_trace ext req
              (some (ParsedDelete.splitResult ext req coll)) be.serialize
              [Event.splitPredicate, Event.stopExpressionCounters] with
            htr | ⟨fcx, htr, hfx⟩
          · rw [htr] at hc
            simp at hc
          · rw [htr] at hc h2
            simp at hc
            subst hc
            refine ⟨by rw [hbe]; rfl, ?_, by rw [← h2]; simp⟩
            rw [hfx, hbe]
            rfl

def splitW : TimeseriesWritesQueryExprs :=
  ParsedDelete.splitResult extSpec reqBase collTs

def fcC5 : FindCommandRequest :=
  ParsedDelete.attachParams reqBase
    (ParsedDelete.baseFC reqBase (bucketSerial splitW._bucketExpr))

def tC5 : List Event :=
  [Event.resolveCollator, Event.startExpressionCounters,
   Event.splitPredicate, Event.stopExpressionCounters,
   Event.canonicalize fcC5]

theorem ts_canonicalizes_bucket_predicate_witness :
    (ParsedDelete.splitResult extSpec reqBase collTs)._bucketExpr.isSome = true ∧
    fcC5.filter =
      bucketSerial (ParsedDelete.splitResult extSpec reqBase collTs)._bucketExpr ∧
    tC5 = [Event.resolveCollator, Event.startExpressionCounters,
           Event.splitPredicate, Event.stopExpressionCounters,
           Event.canonicalize fcC5] :=
  ts_canonicalizes_bucket_predicate extSpec reqBase collTs emptyExprs
    (Outcome.ok { exprs := some splitW, cq := some { findCommand := fcC5 } })
    tC5 fcC5 (by decide) (by decide)

/-- C6: after a successful `compile()`, the compiler is eligible for an
arbitrary-order timeseries delete exactly when the delete is time-partitioned
(non-null `_timeseriesDeleteQueryExprs`) and either the split produced a
residual predicate or the specification is non-multi; false in every other
case. -/
theorem eligible_iff_ts_and_residual_or_nonmulti (ext : Externals)
    (req : DeleteRequest) (coll : Collection)
    (exprs0 : Option TimeseriesWritesQueryExprs) (r : PDResult)
    (t : List Event)
    (h : ParsedDelete.parseRequest ext req coll exprs0 = (Outcome.ok r, t)) :
    ParsedDelete.isEligibleForArbitraryTimeseriesDelete req r.exprs = true ↔
      (exprs0.isSome = true ∧
        ((ParsedDelete.splitResult ext req coll)._residualExpr.isSome = true ∨
         req.multi = false)) := by
  rcases parseRequest_ok _ _ _ _ _ _ h with ⟨_, hnone, hr, _⟩ | ⟨_, t2, hpq, _⟩
  · subst hnone
    rw [hr]
    simp [ParsedDelete.isEligibleForArbitraryTimeseriesDelete,
      ParsedDelete.getResidualExpr]
  · obtain ⟨fc, _, _, _, hcase⟩ := parseQueryToCQ_ok _ _ _ _ _ _ hpq
    rcases hcase with ⟨hn, hre, _, _⟩ | ⟨hsome, hre, _, _, _⟩
    · subst hn
      rw [hre]
      simp [ParsedDelete.isEligibleForArbitraryTimeseriesDelete,
        ParsedDelete.getResidualExpr]
    · rw [hre]
      simp [ParsedDelete.isEligibleForArbitraryTimeseriesDelete,
        ParsedDelete.getResidualExpr, hsome]

def reqC6 : DeleteRequest := { reqBase with multi := true }

def splitW6 : TimeseriesWritesQueryExprs :=
  ParsedDelete.splitResult extSpec reqC6 collTs

def fcC6 : FindCommandRequest :=
  ParsedDelete.attachParams reqC6
    (ParsedDelete.baseFC reqC6 (bucketSerial splitW6._bucketExpr))

def rC6 : PDResult :=
  { exprs := some splitW6, cq := some { findCommand := fcC6 } }

theorem eligible_iff_ts_and_residual_or_nonmulti_witness :
    ParsedDelete.isEligibleForArbitraryTimeseriesDelete reqC6 rC6.exprs = true ↔
      ((some emptyExprs : Option TimeseriesWritesQueryExprs).isSome = true ∧
        ((ParsedDelete.splitResult extSpec reqC6 collTs)._residualExpr.isSome = true ∨
         reqC6.multi = false)) :=
  eligible_iff_ts_and_residual_or_nonmulti extSpec reqC6 collTs
    (some emptyExprs) rC6
    [Event.resolveCollator, Event.startExpressionCounters,
     Event.splitPredicate, Event.stopExpressionCounters,
     Event.canonicalize fcC6]
    (by decide)

/-- C9: even with the constructor's `isTimeseriesDelete` flag set, when the
feature flag is off or the collection is not time-partitioned the
query-expressions member is null, and any successful compilation then does no
predicate splitting, hands the caller's original predicate to every
canonicalizer invocation, may take the `_id` fast path, and reports
`isTimeseriesEligibleForArbitraryOrderDelete()` false. -/
theorem isTimeseriesDelete_flag_gated (ff : Bool) (coll : Collection)
    (ext : Externals) (req : DeleteRequest) (r : PDResult) (t : List Event)
    (hoff : ff = false ∨ coll.timeseriesOptions = none)
    (h : ParsedDelete.parseRequest ext req coll
        (ParsedDelete.initExprs ff coll true) = (Outcome.ok r, t)) :
    ParsedDelete.initExprs ff coll true = none ∧
    ParsedDelete.isEligibleForArbitraryTimeseriesDelete req r.exprs = false ∧
    Event.splitPredicate ∉ t ∧
    canonFilterAlways req.query t = true ∧
    (ext.isSimpleIdQuery req.query = true → r.cq = none) := by
  have hnone : ParsedDelete.initExprs ff coll true = none := by
    rcases hoff with h1 | h1 <;>
      simp [ParsedDelete.initExprs,
        createTimeseriesWritesQueryExprsIfNecessary, h1]
  rw [hnone] at h
  refine ⟨hnone, ?_⟩
  rcases parseRequest_ok _ _ _ _ _ _ h with ⟨_, _, hr, ht⟩ | ⟨hcond, t2, hpq, ht⟩
  · subst ht
    rw [hr]
    exact ⟨by simp [ParsedDelete.isEligibleForArbitraryTimeseriesDelete],
      by simp, rfl, fun _ => rfl⟩
  · obtain ⟨fc, hcq, _, _, hcase⟩ := parseQueryToCQ_ok _ _ _ _ _ _ hpq
    rcases hcase with ⟨_, hre, hf, ht2⟩ | ⟨hsome, _, _, _, _⟩
    · subst ht2
      subst ht
      refine ⟨by rw [hre]; simp [ParsedDelete.isEligibleForArbitraryTimeseriesDelete],
        by simp, by simp [canonFilterAlways, hf], ?_⟩
      intro hid
      rw [hid] at hcond
      simp at hcond
    · simp at hsome

def fcC9 : FindCommandRequest :=
  ParsedDelete.attachParams reqBase (ParsedDelete.baseFC reqBase reqBase.query)

theorem isTimeseriesDelete_flag_gated_witness :
    ParsedDelete.initExprs false collTs true = none ∧
    ParsedDelete.isEligibleForArbitraryTimeseriesDelete reqBase
      ({ exprs := none, cq := some { findCommand := fcC9 } } : PDResult).exprs = false ∧
    Event.splitPredicate ∉
      [Event.resolveCollator, Event.startExpressionCounters,
       Event.canonicalize fcC9] ∧
    canonFilterAlways reqBase.query
      [Event.resolveCollator, Event.startExpressionCounters,
       Event.canonicalize fcC9] = true ∧
    (extSpec.isSimpleIdQuery reqBase.query = true →
      ({ exprs := none, cq := some { findCommand := fcC9 } } : PDResult).cq = none) :=
  isTimeseriesDelete_flag_gated false collTs extSpec reqBase
    { exprs := none, cq := some { findCommand := fcC9 } }
    [Event.resolveCollator, Event.startExpressionCounters,
     Event.canonicalize fcC9]
    (Or.inl rfl) (by decide)

/-- C10: the canonicalizer input never carries the specification's projection:
`parseQueryToCQ` is entirely independent of the projection field, and for any
specification with `returnDeleted` set (so that a non-empty projection is
contract-legal) the whole compilation result is unchanged by the projection. -/
theorem canonicalizer_input_projection_free (ext : Externals)
    (req : DeleteRequest) (coll : Collection)
    (exprs0 : Option TimeseriesWritesQueryExprs) (p : BSONObj)
    (hret : req.returnDeleted = true) :
    ParsedDelete.parseQueryToCQ ext { req with proj := p } coll exprs0 =
      ParsedDelete.parseQueryToCQ ext req coll exprs0 ∧
    ParsedDelete.parseRequest ext { req with proj := p } coll exprs0 =
      ParsedDelete.parseRequest ext req coll exprs0 := by
  have hq : ParsedDelete.parseQueryToCQ ext { req with proj := p } coll exprs0 =
      ParsedDelete.parseQueryToCQ ext req coll exprs0 := rfl
  refine ⟨hq, ?_⟩
  obtain ⟨ns, q, so, co, hi, pr, mu, rd, g, yp, ex, lrc, lp⟩ := req
  simp only at hret
  subst hret
  cases mu <;> simp [ParsedDelete.parseRequest, hq]

def reqC10 : DeleteRequest := { reqBase with returnDeleted := true }

theorem canonicalizer_input_projection_free_witness :
    ParsedDelete.parseQueryToCQ extSpec
        { reqC10 with proj := [("x", BSONValue.scalar "9")] } collPlain none =
      ParsedDelete.parseQueryToCQ extSpec reqC10 collPlain none ∧
    ParsedDelete.parseRequest extSpec
        { reqC10 with proj := [("x", BSONValue.scalar "9")] } collPlain none =
      ParsedDelete.parseRequest extSpec reqC10 collPlain none :=
  canonicalizer_input_projection_free extSpec reqC10 collPlain none
    [("x", BSONValue.scalar "9")] rfl
